import Mathlib

/-!
Verification of the base CRUD controller (src/baseCtrl.js).

The controller is glue code over an external ORM (Sequelize) and an HTTP
error library.  We embed the request-parameter values as a small model of
JavaScript values (`JVal`), translate the lodash object operations the
source uses (`_.omit`, `_.get`, `_.set`, `_.reduce`, truthiness, numeric
coercion) over association lists, and embed every method of the class.
The ORM itself is an external collaborator: each method takes the ORM
operation it delegates to as a function argument, so the theorems hold for
every ORM behaviour.
-/

/-- A JavaScript value, as far as the controller inspects one. -/
inductive JVal where
  | null : JVal
  | bool : Bool → JVal
  | num : Int → JVal
  | str : String → JVal
  | arr : List JVal → JVal
  | obj : List (String × JVal) → JVal
deriving Repr

/-- A JavaScript object: an association list of own enumerable properties in
insertion order (JS object keys are unique). -/
abbrev JObj := List (String × JVal)

mutual

/-- Structural equality of `JVal` (JS values the controller compares are
compared by SameValueZero in lodash `_.difference`; on our value model that
is structural equality). -/
def jvalBeq : JVal → JVal → Bool
  | .null, .null => true
  | .bool a, .bool b => a == b
  | .num a, .num b => a == b
  | .str a, .str b => a == b
  | .arr a, .arr b => jvalListBeq a b
  | .obj a, .obj b => jvalObjBeq a b
  | _, _ => false

def jvalListBeq : List JVal → List JVal → Bool
  | [], [] => true
  | a :: as, b :: bs => jvalBeq a b && jvalListBeq as bs
  | _, _ => false

def jvalObjBeq : List (String × JVal) → List (String × JVal) → Bool
  | [], [] => true
  | a :: as, b :: bs => a.1 == b.1 && jvalBeq a.2 b.2 && jvalObjBeq as bs
  | _, _ => false

end

instance : BEq JVal := ⟨jvalBeq⟩

/-- Property read `o[k]`: `none` models `undefined` (key absent). -/
def jget (o : JObj) (k : String) : Option JVal :=
  (o.find? (fun kv => kv.1 == k)).map (fun kv => kv.2)

/-- Keys of an object, in insertion order (`_.keys`). -/
def jkeys (o : JObj) : List String := o.map (fun kv => kv.1)

/-- `_.omit(o, ks)`: the object without the listed keys, other entries kept
in order with their values unchanged. -/
def jomit (o : JObj) (ks : List String) : JObj :=
  o.filter (fun kv => !(ks.contains kv.1))

/-- JavaScript truthiness of a value (objects and arrays are always truthy;
`null`, `false`, `0` and the empty string are falsy). -/
def truthy : JVal → Bool
  | .null => false
  | .bool b => b
  | .num n => n != 0
  | .str s => !(s == "")
  | .arr _ => true
  | .obj _ => true

mutual

/-- JavaScript string coercion, as used by `name + ".model"` on include
entries (arrays join their elements with a comma, objects print as
"[object Object]"). -/
def jvalToString : JVal → String
  | .null => "null"
  | .bool b => if b then "true" else "false"
  | .num n => toString n
  | .str s => s
  | .arr vs => String.intercalate "," (jvalToStringList vs)
  | .obj _ => "[object Object]"

def jvalToStringList : List JVal → List String
  | [] => []
  | v :: vs => jvalToString v :: jvalToStringList vs

end

/-- An ASCII whitespace character, for the trimming `Number` performs. -/
def isSpaceChar (c : Char) : Bool :=
  c == Char.ofNat 32 || c == Char.ofNat 9 || c == Char.ofNat 10 || c == Char.ofNat 13

def trimChars (cs : List Char) : List Char :=
  ((cs.dropWhile isSpaceChar).reverse.dropWhile isSpaceChar).reverse

/-- The value of a decimal digit character. -/
def digitVal (c : Char) : Option Nat :=
  if c.isDigit then some (c.toNat - 48) else none

/-- The natural number denoted by a non-empty string of decimal digits. -/
def digitsToNat (cs : List Char) : Option Nat :=
  if cs.isEmpty then none
  else cs.foldl (fun acc c =>
    match acc, digitVal c with
    | some n, some d => some (n * 10 + d)
    | _, _ => none) (some 0)

/-- JS `Number(string)`: `none` models `NaN`; blank strings coerce to 0; an
optional sign followed by decimal digits parses as an integer.  (We model
integral numbers only; the controller coerces limit/offset.) -/
def strToNum (s : String) : Option Int :=
  match trimChars s.toList with
  | [] => some 0
  | c :: cs =>
    if c == Char.ofNat 45 then (digitsToNat cs).map (fun n => -(Int.ofNat n))
    else if c == Char.ofNat 43 then (digitsToNat cs).map (fun n => Int.ofNat n)
    else (digitsToNat (c :: cs)).map (fun n => Int.ofNat n)

/-- JS unary plus, used on the limit/offset parameters; `none` models `NaN`.
An array coerces through its string form. -/
def toNumber : JVal → Option Int
  | .null => some 0
  | .bool b => some (if b then 1 else 0)
  | .num n => some n
  | .str s => strToNum s
  | .arr vs => strToNum (String.intercalate "," (jvalToStringList vs))
  | .obj _ => none

/-- `_.isArray(v) ? v : [v]`. -/
def toArrayJ : JVal → List JVal
  | .arr vs => vs
  | v => [v]

-- The reserved parameter keys of the source (its `const` declarations).
def LIMIT : String := "limit"
def OFFSET : String := "offset"
def ORDER : String := "order"
def INCLUDE : String := "include"
def ATTRIBUTES : String := "attributes"
def EXCLUDE : String := "exclude"

/-- `IGNORE = [LIMIT, OFFSET, ORDER, INCLUDE, ATTRIBUTES]` — note the source
does not put `EXCLUDE` in this list. -/
def IGNORE : List String := [LIMIT, OFFSET, ORDER, INCLUDE, ATTRIBUTES]

/-- Keys of the include map (`_.keys(include)`). -/
def incKeysOf (inc : List (String × α)) : List String := inc.map (fun kv => kv.1)

/-- One entry of the `include` map built by `_getOptions`: the associated
model (we keep the model's name, standing for `models[name]`), optional
attribute selection, and the `Sequelize.and(val)` filter (we keep the value
the source passes to `Sequelize.and`). -/
structure IncludeEntry where
  model : String
  attributes : Option (List JVal) := none
  whereAnd : Option JVal := none

/-- The include accumulator of `_getOptions`: an object keyed by association
name. -/
abbrev IncMap := List (String × IncludeEntry)

/-- A fresh `{}` created by `_.set` on a missing key; its `model` field is
always written before the entry is observed. -/
def emptyEntry : IncludeEntry := { model := "" }

/-- `_.set(include, name + "." + field, v)`: updates the named entry in
place when present, appends a fresh one otherwise. -/
def incSet (inc : IncMap) (name : String) (f : IncludeEntry → IncludeEntry) : IncMap :=
  if inc.any (fun kv => kv.1 == name) then
    inc.map (fun kv => if kv.1 == name then (kv.1, f kv.2) else kv)
  else
    inc ++ [(name, f emptyEntry)]

def incSetModel (inc : IncMap) (name : String) (m : String) : IncMap :=
  incSet inc name (fun e => { e with model := m })

def incSetAttributes (inc : IncMap) (name : String) (a : List JVal) : IncMap :=
  incSet inc name (fun e => { e with attributes := some a })

def incSetWhere (inc : IncMap) (name : String) (w : JVal) : IncMap :=
  incSet inc name (fun e => { e with whereAnd := some w })

/-- `_.get(_.pick(val, ATTRIBUTES), ATTRIBUTES)`: the attributes property of
the parameter value when it is an object carrying one. -/
def getAttributesOf (val : JVal) : Option JVal :=
  match val with
  | .obj kvs => jget kvs ATTRIBUTES
  | _ => none

/-- `_.omit(val, ATTRIBUTES)` on a parameter value. -/
def jomitVal (val : JVal) (k : String) : JVal :=
  match val with
  | .obj kvs => .obj (jomit kvs [k])
  | v => v

/-- One step of the first `_.reduce` of `_getOptions` (source lines
157-171): a parameter whose key names an association becomes an include
entry with its model, optional attribute selection, and
`Sequelize.and(val)` filter; other parameters leave the accumulator
unchanged. -/
def includeStep (relations : List String) (inc : IncMap) (kv : String × JVal) : IncMap :=
  if relations.contains kv.1 then
    match getAttributesOf kv.2 with
    | some a =>
      if truthy a then
        incSetWhere (incSetAttributes (incSetModel inc kv.1 kv.1) kv.1 (toArrayJ a))
          kv.1 (jomitVal kv.2 ATTRIBUTES)
      else
        incSetWhere (incSetModel inc kv.1 kv.1) kv.1 kv.2
    | none => incSetWhere (incSetModel inc kv.1 kv.1) kv.1 kv.2
  else inc

/-- `options[INCLUDE] || []`, then wrapped into an array when it is not one
(source lines 173-174). -/
def includeModelsOf (params : JObj) : List JVal :=
  let v := (jget params INCLUDE).getD JVal.null
  if truthy v then toArrayJ v else []

/-- How lodash `_.reduce`/`_.map` iterate a collection value: an object by
its entries, an array by index, a string by character index, anything else
not at all. -/
def collEntries : JVal → List (String × JVal)
  | .obj kvs => kvs
  | .arr vs => vs.enum.map (fun p => (toString p.1, p.2))
  | .str s => s.toList.enum.map (fun p => (toString p.1, JVal.str p.2.toString))
  | _ => []

/-- An ORM order item: a `[field, direction]` pair, or a
`[model, field, direction]` triple for an associated model. -/
inductive OrderItem where
  | pair : String → JVal → OrderItem
  | triple : String → String → JVal → OrderItem

/-- One step of the order `_.reduce` of `_getOptions` (source lines
178-188).  For an association name the source sets the include entry's
model and then calls `order.concat(...)` WITHOUT using its result — JS
`concat` returns a new array — so the accumulator is returned unchanged;
for any other name it pushes the `[name, value]` pair. -/
def orderStep (relations : List String) (st : IncMap × List OrderItem)
    (kv : String × JVal) : IncMap × List OrderItem :=
  if relations.contains kv.1 then
    (incSetModel st.1 kv.1 kv.1, st.2)
  else
    (st.1, st.2 ++ [OrderItem.pair kv.1 kv.2])

/-- The list the source builds at line 182 —
`_.map(value, (val, field) => [orderModel, field, val])` — and then
discards by not using the result of `order.concat`. -/
def discardedOrderTriples (name : String) (value : JVal) : List OrderItem :=
  (collEntries value).map (fun kv => OrderItem.triple name kv.1 kv.2)

/-- `_.difference` only subtracts values coming from array arguments. -/
def toDiffList : JVal → List JVal
  | .arr vs => vs
  | _ => []

/-- The instance state of the `Base` class that `_getOptions` reads: the
association target names, the model's attribute keys, and the two
overridable defaults (both `null` on the base class). -/
structure Base where
  relations : List String
  modelAttributes : List String
  defaultAttributes : JVal := JVal.null
  defaultExclude : JVal := JVal.null

/-- Static getter `LIMIT` of the class (the default page size 100); named
`defaultLimit` here because the parameter-key constant holds the name. -/
def Base.defaultLimit : Int := 100

/-- Static getter `OFFSET` of the class (the default offset 0). -/
def Base.defaultOffset : Int := 0

/-- Source lines 195-198:
`options.attributes || this.defaultAttributes || Object.keys(this.model.attributes)`,
wrapped into an array, minus `options.exclude` and `this.defaultExclude`. -/
def buildAttributes (self : Base) (params : JObj) : List JVal :=
  let raw0 := (jget params ATTRIBUTES).getD JVal.null
  let raw1 := if truthy raw0 then raw0
    else if truthy self.defaultAttributes then self.defaultAttributes
    else JVal.arr (self.modelAttributes.map JVal.str)
  let attrs := toArrayJ raw1
  let excl := toDiffList ((jget params EXCLUDE).getD JVal.null) ++ toDiffList self.defaultExclude
  attrs.filter (fun a => !(excl.contains a))

/-- The include map and order list of `_getOptions`, in the source's
evaluation order: the parameter reduce (lines 157-171), the
`options.include` forEach (lines 173-176), then the order reduce (lines
178-188), which may still add include entries. -/
def Base.buildIncludeAndOrder (self : Base) (params : JObj) : IncMap × List OrderItem :=
  let inc1 := params.foldl (includeStep self.relations) []
  let inc2 := (includeModelsOf params).foldl
    (fun inc v => incSetModel inc (jvalToString v) (jvalToString v)) inc1
  (collEntries ((jget params ORDER).getD JVal.null)).foldl (orderStep self.relations) (inc2, [])

/-- The ORM query options returned by `_getOptions` (source line 200-208). -/
structure QueryOptions where
  attributes : List JVal
  whereOpt : JObj
  includeOpt : List IncludeEntry
  order : List OrderItem
  limit : Option Int
  offset : Option Int
  subQuery : Bool

/-- `Base.prototype._getOptions` (source lines 156-209).  `whereOpt` models
the `where` option: the parameters minus the include map's keys and the
`IGNORE` list; `limit`/`offset` are the numeric coercions of the given
parameters, with the class statics as defaults. -/
def Base.getOptions (self : Base) (params : JObj) : QueryOptions :=
  let st := self.buildIncludeAndOrder params
  { attributes := buildAttributes self params
    whereOpt := jomit params (incKeysOf st.1 ++ IGNORE)
    includeOpt := st.1.map (fun kv => kv.2)
    order := st.2
    limit := match jget params LIMIT with
      | some v => toNumber v
      | none => some Base.defaultLimit
    offset := match jget params OFFSET with
      | some v => toNumber v
      | none => some Base.defaultOffset
    subQuery := false }

/-- The count query options: `_.omit(options, LIMIT, OFFSET)` on the built
options object — everything but the limit and offset keys. -/
structure CountOptions where
  attributes : List JVal
  whereOpt : JObj
  includeOpt : List IncludeEntry
  order : List OrderItem
  subQuery : Bool

def omitLimitOffset (o : QueryOptions) : CountOptions :=
  { attributes := o.attributes
    whereOpt := o.whereOpt
    includeOpt := o.includeOpt
    order := o.order
    subQuery := o.subQuery }

/-- A database row, as the controller sees one: a plain record object
(always truthy in JS, so the source's `!data` test is exactly the test for
a null result). -/
abbrev Row := JObj

/-- The ORM operations `find` delegates to: `model.findAll` on the full
options and `model.count` on the options without limit and offset. -/
structure OrmFind where
  findAll : QueryOptions → List Row
  countRows : CountOptions → Nat

/-- `meta` of a `find` result. -/
structure FindMeta where
  count : Nat
  total : Nat
  limit : Option Int
  offset : Option Int

/-- A resolved `find` result `{data, meta}`. -/
structure FindResult where
  data : List Row
  meta : FindMeta

/-- An `HttpError(status)` rejection. -/
structure HttpErr where
  status : Nat
deriving DecidableEq

/-- A resolved `findById` result `{data}`. -/
structure FindOneResult where
  data : Row

/-- A resolved `create` result `{data}`; `none` models a `null` data field. -/
structure CreateResult where
  data : Option Row

/-- How `model.create(data)` settles: resolve with the new record, reject
with Sequelize's `UniqueConstraintError`, or reject with any other error
(carried as a value). -/
inductive InsertOutcome where
  | created : Row → InsertOutcome
  | uniqueConstraintError : InsertOutcome
  | otherError : JVal → InsertOutcome

/-- `Base.prototype.find` (source lines 49-72): normalizes the parameters
with `params-to-tree` (an external dependency, passed in as the function
`paramsToTree`), builds the options, runs `findAll` on them and `count` on
the options minus limit/offset, and shapes `{data, meta}`. -/
def Base.find (self : Base) (orm : OrmFind) (paramsToTree : JObj → JObj)
    (params : JObj) : FindResult :=
  let tree := paramsToTree params
  let options := self.getOptions tree
  let data := orm.findAll options
  let total := orm.countRows (omitLimitOffset options)
  { data := data
    meta := { count := data.length, total := total
              limit := options.limit, offset := options.offset } }

/-- `Base.prototype.findById` (source lines 80-92): builds the options from
the raw parameters (no `params-to-tree` call), delegates to
`model.findById(id, options)`, and either rejects with `HttpError(404)` on
a null result or resolves `{data}`. -/
def Base.findById (self : Base) (lookupById : Int → QueryOptions → Option Row)
    (id : Int) (params : JObj) : Except HttpErr FindOneResult :=
  let options := self.getOptions params
  match lookupById id options with
  | none => .error { status := 404 }
  | some d => .ok { data := d }

/-- `Base.prototype.create` (source lines 100-112): on a
`UniqueConstraintError` rejection it falls back to
`model.findOne({where: data})`; any other rejection is rethrown; the
resolved value is wrapped as `{data}`. -/
def Base.create (insert : JObj → InsertOutcome) (findOne : JObj → Option Row)
    (data : JObj) : Except JVal CreateResult :=
  match insert data with
  | .created r => .ok { data := some r }
  | .uniqueConstraintError => .ok { data := findOne data }
  | .otherError e => .error e

/-- `Base.prototype.update` (source lines 120-132): delegates to
`model.update(data, {where: {id}})` and rejects with `HttpError(204)` when
the affected-row count is zero.  The ORM is modelled as resolving with that
count, as the source and its doc comment assume. -/
def Base.update (ormUpdate : JObj → JObj → Nat) (id : Int) (data : JObj) :
    Except HttpErr Unit :=
  let affectedRows := ormUpdate data [("id", JVal.num id)]
  if affectedRows == 0 then .error { status := 204 } else .ok ()

/-- `Base.prototype.remove` (source lines 139-149): delegates to
`model.destroy({where: condition})` and rejects with `HttpError(202)` when
the deleted-row count is zero. -/
def Base.remove (destroy : JObj → Nat) (condition : JObj) : Except HttpErr Unit :=
  let affectedRows := destroy condition
  if affectedRows == 0 then .error { status := 202 } else .ok ()

/-! Concrete instances used by counterexamples and witnesses. -/

/-- A controller over a model with no associations and one attribute. -/
def exCtrl : Base := { relations := [], modelAttributes := ["id"] }

/-- A controller over a model with one association, named User. -/
def relCtrl : Base := { relations := ["User"], modelAttributes := ["id"] }

/-- Request parameters carrying only an exclude key. -/
def exParams : JObj := [(EXCLUDE, JVal.str "a")]

/-- Request parameters ordering by a field of the User association. -/
def orderParams : JObj :=
  [(ORDER, JVal.obj [("User", JVal.obj [("name", JVal.str "ASC")])])]

/-- Request parameters with one plain filter key. -/
def aParams : JObj := [("a", JVal.num 1)]

/-- A normalizer that maps every parameter object to the empty tree: one
possible behaviour of the external params-to-tree dependency, enough to
separate raw parameters from normalized ones. -/
def emptyTree : JObj → JObj := fun _ => []

/-- An ORM lookup that finds a record exactly when the built options carry
an empty where filter. -/
def probeLookup : Int → QueryOptions → Option Row :=
  fun _ opts => if opts.whereOpt.isEmpty then some [("id", JVal.num 7)] else none

/-! Helper lemmas about the include map's keys. -/

theorem incKeysOf_map_update (inc : IncMap) (n : String)
    (f : IncludeEntry → IncludeEntry) :
    incKeysOf (inc.map (fun kv => if kv.1 == n then (kv.1, f kv.2) else kv))
      = incKeysOf inc := by
  unfold incKeysOf
  rw [List.map_map]
  congr 1
  funext kv
  simp only [Function.comp_apply]
  split <;> rfl

theorem mem_incKeysOf_incSet (inc : IncMap) (n : String)
    (f : IncludeEntry → IncludeEntry) (m : String) (h : m ∈ incKeysOf inc) :
    m ∈ incKeysOf (incSet inc n f) := by
  unfold incSet
  split
  · rwa [incKeysOf_map_update]
  · unfold incKeysOf at *
    rw [List.map_append]
    exact List.mem_append_left _ h

theorem mem_incKeysOf_incSet_self (inc : IncMap) (n : String)
    (f : IncludeEntry → IncludeEntry) : n ∈ incKeysOf (incSet inc n f) := by
  unfold incSet
  split
  · rename_i h
    rw [incKeysOf_map_update]
    rcases List.any_eq_true.mp h with ⟨kv, hmem, hbeq⟩
    have hk : kv.1 = n := by simpa using hbeq
    exact hk ▸ List.mem_map.mpr ⟨kv, hmem, rfl⟩
  · unfold incKeysOf
    simp

theorem mem_incKeysOf_includeStep (rel : List String) (inc : IncMap)
    (kv : String × JVal) (m : String) (h : m ∈ incKeysOf inc) :
    m ∈ incKeysOf (includeStep rel inc kv) := by
  unfold includeStep
  split
  · split
    · split
      · exact mem_incKeysOf_incSet _ _ _ _
          (mem_incKeysOf_incSet _ _ _ _ (mem_incKeysOf_incSet _ _ _ _ h))
      · exact mem_incKeysOf_incSet _ _ _ _ (mem_incKeysOf_incSet _ _ _ _ h)
    · exact mem_incKeysOf_incSet _ _ _ _ (mem_incKeysOf_incSet _ _ _ _ h)
  · exact h

theorem self_mem_incKeysOf_includeStep (rel : List String) (inc : IncMap)
    (kv : String × JVal) (h : rel.contains kv.1 = true) :
    kv.1 ∈ incKeysOf (includeStep rel inc kv) := by
  unfold includeStep
  rw [if_pos h]
  cases getAttributesOf kv.2 with
  | none => exact mem_incKeysOf_incSet_self _ _ _
  | some a =>
    simp only []
    split <;> exact mem_incKeysOf_incSet_self _ _ _

theorem mem_incKeysOf_foldl_includeStep (rel : List String)
    (l : List (String × JVal)) (inc : IncMap) (m : String)
    (h : m ∈ incKeysOf inc) :
    m ∈ incKeysOf (l.foldl (includeStep rel) inc) := by
  induction l generalizing inc with
  | nil => exact h
  | cons x xs ih => exact ih _ (mem_incKeysOf_includeStep _ _ _ _ h)

theorem assoc_mem_incKeysOf_foldl_includeStep (rel : List String)
    (l : List (String × JVal)) (inc : IncMap) (k : String) (v : JVal)
    (hm : (k, v) ∈ l) (hr : rel.contains k = true) :
    k ∈ incKeysOf (l.foldl (includeStep rel) inc) := by
  induction l generalizing inc with
  | nil => cases hm
  | cons x xs ih =>
    rcases List.mem_cons.mp hm with he | ht
    · subst he
      show k ∈ incKeysOf (xs.foldl (includeStep rel) (includeStep rel inc (k, v)))
      exact mem_incKeysOf_foldl_includeStep _ _ _ _
        (self_mem_incKeysOf_includeStep rel inc (k, v) hr)
    · exact ih _ ht

theorem mem_incKeysOf_foldl_setModel (l : List JVal) (inc : IncMap) (m : String)
    (h : m ∈ incKeysOf inc) :
    m ∈ incKeysOf (l.foldl
      (fun inc v => incSetModel inc (jvalToString v) (jvalToString v)) inc) := by
  induction l generalizing inc with
  | nil => exact h
  | cons x xs ih => exact ih _ (mem_incKeysOf_incSet _ _ _ _ h)

theorem mem_incKeysOf_foldl_orderStep (rel : List String)
    (l : List (String × JVal)) (st : IncMap × List OrderItem) (m : String)
    (h : m ∈ incKeysOf st.1) :
    m ∈ incKeysOf ((l.foldl (orderStep rel) st).1) := by
  induction l generalizing st with
  | nil => exact h
  | cons x xs ih =>
    apply ih
    unfold orderStep
    split
    · show m ∈ incKeysOf (incSetModel st.1 x.1 x.1)
      exact mem_incKeysOf_incSet st.1 x.1 _ m h
    · exact h

/-- An association-named parameter always lands in the include map. -/
theorem assoc_key_in_include (self : Base) (params : JObj) (k : String) (v : JVal)
    (hm : (k, v) ∈ params) (hr : k ∈ self.relations) :
    k ∈ incKeysOf (self.buildIncludeAndOrder params).1 := by
  unfold Base.buildIncludeAndOrder
  apply mem_incKeysOf_foldl_orderStep
  apply mem_incKeysOf_foldl_setModel
  exact assoc_mem_incKeysOf_foldl_includeStep _ _ _ _ _ hm (List.elem_iff.mpr hr)

/-- Membership in the omitted object. -/
theorem mem_jomit (o : JObj) (ks : List String) (k : String) (v : JVal) :
    (k, v) ∈ jomit o ks ↔ (k, v) ∈ o ∧ ¬ k ∈ ks := by
  unfold jomit
  rw [List.mem_filter]
  simp [List.elem_iff]

/-! The claims. -/

/-- Claim C1: for every request params object, find resolves with
`{data, meta}` where data is the list of rows the ORM returns under the
built options, meta.count is the length of data, meta.total is the row
count computed under the same where/include options with the limit and
offset keys omitted, and meta.limit/meta.offset are the limit and offset
applied to the data query. -/
theorem find_result_shape (self : Base) (orm : OrmFind) (normalize : JObj → JObj)
    (params : JObj) :
    (Base.find self orm normalize params).data
        = orm.findAll (self.getOptions (normalize params)) ∧
    (Base.find self orm normalize params).meta.count
        = (Base.find self orm normalize params).data.length ∧
    (Base.find self orm normalize params).meta.total
        = orm.countRows (omitLimitOffset (self.getOptions (normalize params))) ∧
    (omitLimitOffset (self.getOptions (normalize params))).whereOpt
        = (self.getOptions (normalize params)).whereOpt ∧
    (omitLimitOffset (self.getOptions (normalize params))).includeOpt
        = (self.getOptions (normalize params)).includeOpt ∧
    (Base.find self orm normalize params).meta.limit
        = (self.getOptions (normalize params)).limit ∧
    (Base.find self orm normalize params).meta.offset
        = (self.getOptions (normalize params)).offset :=
  ⟨rfl, rfl, rfl, rfl, rfl, rfl, rfl⟩

/-- Claim C2: for every id and params, findById rejects with HttpError(404)
exactly when the ORM lookup for that id yields no record, and otherwise
resolves with the found record wrapped as `{data}`. -/
theorem findById_not_found_iff (self : Base)
    (lookupById : Int → QueryOptions → Option Row) (id : Int) (params : JObj) :
    (Base.findById self lookupById id params = .error { status := 404 } ↔
      lookupById id (self.getOptions params) = none) ∧
    ∀ r : Row, (Base.findById self lookupById id params = .ok { data := r } ↔
      lookupById id (self.getOptions params) = some r) := by
  unfold Base.findById
  cases h : lookupById id (self.getOptions params) with
  | none => simp [h]
  | some d => simp [h, FindOneResult.mk.injEq]

/-- Claim C3: create resolves with the created record on a successful
insert; on a UniqueConstraintError rejection it resolves with whatever
`findOne({where: data})` returns; any other rejection propagates
unchanged. -/
theorem create_outcome_cases (insert : JObj → InsertOutcome)
    (findOne : JObj → Option Row) (data : JObj) :
    (∀ r, insert data = .created r →
      Base.create insert findOne data = .ok { data := some r }) ∧
    (insert data = .uniqueConstraintError →
      Base.create insert findOne data = .ok { data := findOne data }) ∧
    (∀ e, insert data = .otherError e →
      Base.create insert findOne data = .error e) := by
  refine ⟨fun r h => ?_, fun h => ?_, fun e h => ?_⟩ <;>
    unfold Base.create <;> rw [h]

/-- Witness for C3 at a concrete successful insert. -/
theorem create_outcome_cases_inst :
    Base.create (fun _ => InsertOutcome.created [("id", JVal.num 1)]) (fun _ => none) []
      = .ok { data := some [("id", JVal.num 1)] } :=
  (create_outcome_cases (fun _ => InsertOutcome.created [("id", JVal.num 1)])
    (fun _ => none) []).1 _ rfl

/-- Claim C4: update(id, data) rejects with HttpError(204) exactly when the
ORM update with where `{id}` affects zero rows, and resolves exactly when
it affects at least one row. -/
theorem update_accepted_iff (ormUpdate : JObj → JObj → Nat) (id : Int)
    (data : JObj) :
    (Base.update ormUpdate id data = .error { status := 204 } ↔
      ormUpdate data [("id", JVal.num id)] = 0) ∧
    (Base.update ormUpdate id data = .ok () ↔
      0 < ormUpdate data [("id", JVal.num id)]) := by
  unfold Base.update
  by_cases h : ormUpdate data [("id", JVal.num id)] = 0 <;>
    simp [h, Nat.pos_of_ne_zero]

/-- Claim C5: remove(condition) rejects with HttpError(202) exactly when
the ORM destroy with that where clause deletes zero rows, and resolves
exactly when it deletes at least one row. -/
theorem remove_accepted_iff (destroy : JObj → Nat) (condition : JObj) :
    (Base.remove destroy condition = .error { status := 202 } ↔
      destroy condition = 0) ∧
    (Base.remove destroy condition = .ok () ↔ 0 < destroy condition) := by
  unfold Base.remove
  by_cases h : destroy condition = 0 <;> simp [h, Nat.pos_of_ne_zero]

/-- Counterexample to claim C6 as stated: the claim lists `exclude` among
the keys removed from the where filter, but the source's IGNORE list is
only `[limit, offset, order, include, attributes]`, so an `exclude`
parameter stays in the where option. -/
theorem where_keeps_exclude_cex :
    (EXCLUDE, JVal.str "a") ∈ (exCtrl.getOptions exParams).whereOpt ∧
    EXCLUDE ∉ IGNORE := by
  constructor
  · have h : (exCtrl.getOptions exParams).whereOpt = [(EXCLUDE, JVal.str "a")] := rfl
    rw [h]
    exact List.mem_singleton.mpr rfl
  · decide

/-- Claim C6 (amended): the where option contains exactly the parameter
entries, values unchanged, whose key is neither a key of the built include
map (which contains in particular every association-named parameter) nor
one of limit, offset, order, include, attributes — `exclude` is NOT
removed. -/
theorem where_filter_amended (self : Base) (params : JObj) (k : String)
    (v : JVal) :
    ((k, v) ∈ (self.getOptions params).whereOpt ↔
      ((k, v) ∈ params ∧ k ∉ incKeysOf (self.buildIncludeAndOrder params).1 ∧
        k ≠ LIMIT ∧ k ≠ OFFSET ∧ k ≠ ORDER ∧ k ≠ INCLUDE ∧ k ≠ ATTRIBUTES)) ∧
    (k ∈ self.relations → k ∉ jkeys (self.getOptions params).whereOpt) := by
  have hw : (self.getOptions params).whereOpt
      = jomit params (incKeysOf (self.buildIncludeAndOrder params).1 ++ IGNORE) := rfl
  constructor
  · rw [hw, mem_jomit]
    simp only [List.mem_append, not_or, IGNORE, LIMIT, OFFSET, ORDER, INCLUDE,
      ATTRIBUTES, List.mem_cons, List.mem_singleton, List.not_mem_nil, or_false,
      and_assoc, ne_eq]
  · intro hr hk
    unfold jkeys at hk
    rcases List.mem_map.mp hk with ⟨kv, hkv, hfst⟩
    rw [hw] at hkv
    have hkv2 : (kv.1, kv.2) ∈ jomit params
        (incKeysOf (self.buildIncludeAndOrder params).1 ++ IGNORE) := by
      simpa using hkv
    have hJ := (mem_jomit _ _ _ _).mp hkv2
    apply hJ.2
    apply List.mem_append_left
    exact assoc_key_in_include self params kv.1 kv.2 hJ.1 (hfst ▸ hr)

/-- Witness for C6 (amended), at a plain filter parameter that survives
into the where option. -/
theorem where_filter_amended_inst :
    ("a", JVal.num 1) ∈ (exCtrl.getOptions aParams).whereOpt :=
  ((where_filter_amended exCtrl aParams "a" (JVal.num 1)).1).mpr
    ⟨List.mem_singleton.mpr rfl, by decide, by decide, by decide, by decide,
      by decide, by decide⟩

/-- Claim C7, evaluated at its failing input (code bug): with a User
association and `order = {User: {name: "ASC"}}`, the source computes the
`[model, field, direction]` triples (line 182) but discards them — the
result of `order.concat(...)` is never used — so the built order list is
empty; the association is still added to the include map.  The claim (and
the evident intent of calling concat) is that the triples are appended. -/
theorem order_triples_discarded_eval :
    (relCtrl.getOptions orderParams).order = [] ∧
    (Base.buildIncludeAndOrder relCtrl orderParams).1
      = [("User", { model := "User" })] ∧
    discardedOrderTriples "User" (JVal.obj [("name", JVal.str "ASC")])
      = [OrderItem.triple "User" "name" (JVal.str "ASC")] :=
  ⟨rfl, rfl, rfl⟩

/-- Claim C8: the built options carry numeric limit and offset values — the
numeric coercion of the given parameters when present, else the class
defaults 100 and 0. -/
theorem limit_offset_numeric (self : Base) (params : JObj) :
    (jget params LIMIT = none → (self.getOptions params).limit = some 100) ∧
    (∀ v, jget params LIMIT = some v →
      (self.getOptions params).limit = toNumber v) ∧
    (jget params OFFSET = none → (self.getOptions params).offset = some 0) ∧
    (∀ v, jget params OFFSET = some v →
      (self.getOptions params).offset = toNumber v) := by
  have hl : (self.getOptions params).limit = (match jget params LIMIT with
      | some v => toNumber v
      | none => some Base.defaultLimit) := rfl
  have ho : (self.getOptions params).offset = (match jget params OFFSET with
      | some v => toNumber v
      | none => some Base.defaultOffset) := rfl
  refine ⟨fun h => ?_, fun v h => ?_, fun h => ?_, fun v h => ?_⟩
  · rw [hl, h]
    rfl
  · rw [hl, h]
  · rw [ho, h]
    rfl
  · rw [ho, h]

/-- Witness for C8 at a concrete string limit parameter. -/
theorem limit_offset_numeric_inst :
    (exCtrl.getOptions [(LIMIT, JVal.str "5")]).limit = some 5 := by
  have h := (limit_offset_numeric exCtrl [(LIMIT, JVal.str "5")]).2.1
    (JVal.str "5") rfl
  rw [h]
  rfl

/-- Counterexample to claim C9 as stated: findById does not normalize its
parameters — taking a normalizer that maps every params object to the empty
tree, and a lookup that finds a record exactly when the where filter is
empty, findById on `{a: 1}` rejects with 404 while building the options
from the normalized tree would have found the record. -/
theorem findById_no_normalize_cex :
    Base.findById exCtrl probeLookup 1 aParams = .error { status := 404 } ∧
    (match probeLookup 1 (exCtrl.getOptions (emptyTree aParams)) with
      | none => (Except.error { status := 404 } : Except HttpErr FindOneResult)
      | some d => Except.ok { data := d })
      = Except.ok { data := [("id", JVal.num 7)] } :=
  ⟨rfl, rfl⟩

/-- Claim C9 (amended): find normalizes its params through params-to-tree
before building the query options, while findById builds its options
directly from the raw params object with no normalization. -/
theorem normalization_amended (self : Base) (orm : OrmFind)
    (normalize : JObj → JObj) (lookupById : Int → QueryOptions → Option Row)
    (id : Int) (params : JObj) :
    (Base.find self orm normalize params).data
        = orm.findAll (self.getOptions (normalize params)) ∧
    Base.findById self lookupById id params
        = (match lookupById id (self.getOptions params) with
          | none => Except.error { status := 404 }
          | some d => Except.ok { data := d }) :=
  ⟨rfl, rfl⟩

/-- Claim C10: when the insert rejects with a UniqueConstraintError and the
fallback findOne finds nothing, create still resolves, with a null data
field. -/
theorem create_unique_null_fallback (insert : JObj → InsertOutcome)
    (findOne : JObj → Option Row) (data : JObj)
    (h1 : insert data = .uniqueConstraintError) (h2 : findOne data = none) :
    Base.create insert findOne data = .ok { data := none } := by
  unfold Base.create
  rw [h1, h2]

/-- Witness for C10: a concrete always-unique-violating insert with an
empty fallback lookup. -/
theorem create_unique_null_fallback_inst :
    Base.create (fun _ => InsertOutcome.uniqueConstraintError) (fun _ => none) []
      = .ok { data := none } :=
  create_unique_null_fallback (fun _ => InsertOutcome.uniqueConstraintError)
    (fun _ => none) [] rfl rfl
